import Mathlib

/-!
Verification of the promu cross-platform build orchestration subsystem.

The definitions below are a shallow embedding of:
- the platform classification switch in `runCrossbuild` (cmd/crossbuild.go),
  together with the canonical platform lists and ARM alias table;
- the platform-group / builder-image construction (cmd/crossbuild.go);
- the concurrency-limit computation from the CROSSBUILDN environment
  variable and the semaphore-bounded dispatch loop (cmd/crossbuild.go);
- the error aggregation after the build pool drains (cmd/crossbuild.go);
- the non-atomic `errs = append(errs, ...)` performed by build goroutines
  (cmd/crossbuild.go), modelled as a read/write pair on the shared slice;
- `getLdflags` and the build dispatch in `runBuild` (cmd/build.go);
- the helpers `stringInSlice` and `stringInMapKeys` (cmd/promu.go).
-/

namespace Promu

/-- `stringInSlice` from cmd/promu.go: membership by exact string equality. -/
def stringInSlice (needle : String) (haystack : List String) : Bool :=
  match haystack with
  | [] => false
  | hay :: rest => if hay = needle then true else stringInSlice needle rest

/-- `defaultMainPlatforms` from cmd/crossbuild.go. -/
def defaultMainPlatforms : List String :=
  ["linux/amd64", "linux/386", "darwin/amd64", "darwin/386", "windows/amd64", "windows/386",
   "freebsd/amd64", "freebsd/386", "openbsd/amd64", "openbsd/386", "netbsd/amd64", "netbsd/386",
   "dragonfly/amd64"]

/-- `defaultARMPlatforms` from cmd/crossbuild.go. -/
def defaultARMPlatforms : List String :=
  ["linux/armv5", "linux/armv6", "linux/armv7", "linux/arm64", "freebsd/armv6", "freebsd/armv7",
   "openbsd/armv7", "netbsd/armv6", "netbsd/armv7"]

/-- `defaultPowerPCPlatforms` from cmd/crossbuild.go. -/
def defaultPowerPCPlatforms : List String :=
  ["aix/ppc64", "linux/ppc64", "linux/ppc64le"]

/-- `defaultMIPSPlatforms` from cmd/crossbuild.go. -/
def defaultMIPSPlatforms : List String :=
  ["linux/mips", "linux/mipsle", "linux/mips64", "linux/mips64le"]

/-- `defaultS390Platforms` from cmd/crossbuild.go. -/
def defaultS390Platforms : List String :=
  ["linux/s390x"]

/-- `armPlatformsAliases` from cmd/crossbuild.go, as an association list. -/
def armPlatformsAliases : List (String × List String) :=
  [("linux/arm", ["linux/armv5", "linux/armv6", "linux/armv7"]),
   ("freebsd/arm", ["freebsd/armv6", "freebsd/armv7"]),
   ("openbsd/arm", ["openbsd/armv7"]),
   ("netbsd/arm", ["netbsd/armv6", "netbsd/armv7"])]

/-- Map lookup `armPlatformsAliases[platform]`. -/
def lookupAlias (needle : String) : Option (List String) :=
  (armPlatformsAliases.find? (fun kv => kv.1 == needle)).map (fun kv => kv.2)

/-- `stringInMapKeys` from cmd/promu.go, specialised to `armPlatformsAliases`. -/
def stringInMapKeys (needle : String) : Bool :=
  (lookupAlias needle).isSome

/-- The six accumulator slices of the classification switch in `runCrossbuild`. -/
structure Classified where
  mainPlatforms : List String
  armPlatforms : List String
  powerPCPlatforms : List String
  mipsPlatforms : List String
  s390xPlatforms : List String
  unknownPlatforms : List String
deriving Repr, DecidableEq

/-- One iteration of the `for _, platform := range platforms` switch in
`runCrossbuild` (cmd/crossbuild.go lines 136-153). -/
def classifyStep (c : Classified) (platform : String) : Classified :=
  if stringInSlice platform defaultMainPlatforms then
    { c with mainPlatforms := c.mainPlatforms ++ [platform] }
  else if stringInSlice platform defaultARMPlatforms then
    { c with armPlatforms := c.armPlatforms ++ [platform] }
  else if stringInSlice platform defaultPowerPCPlatforms then
    { c with powerPCPlatforms := c.powerPCPlatforms ++ [platform] }
  else if stringInSlice platform defaultMIPSPlatforms then
    { c with mipsPlatforms := c.mipsPlatforms ++ [platform] }
  else if stringInSlice platform defaultS390Platforms then
    { c with s390xPlatforms := c.s390xPlatforms ++ [platform] }
  else if stringInMapKeys platform then
    { c with armPlatforms := c.armPlatforms ++ (lookupAlias platform).getD [] }
  else
    { c with unknownPlatforms := c.unknownPlatforms ++ [platform] }

/-- The empty accumulators before the classification loop. -/
def emptyClassified : Classified := ⟨[], [], [], [], [], []⟩

/-- The whole classification loop of `runCrossbuild`. -/
def classify (platforms : List String) : Classified :=
  platforms.foldl classifyStep emptyClassified

/-- Concatenation of the resolved family slices in the order `runCrossbuild`
builds `allPlatforms` (cmd/crossbuild.go lines 163-168). -/
def allPlatforms (c : Classified) : List String :=
  c.mainPlatforms ++ c.armPlatforms ++ c.powerPCPlatforms ++ c.mipsPlatforms ++
    c.s390xPlatforms

/-- Contribution of one pattern to the `mainPlatforms` slice. -/
def mainOf (p : String) : List String :=
  if stringInSlice p defaultMainPlatforms then [p] else []

/-- Contribution of one pattern to the `armPlatforms` slice (direct match or
alias expansion). -/
def armOf (p : String) : List String :=
  if stringInSlice p defaultMainPlatforms then []
  else if stringInSlice p defaultARMPlatforms then [p]
  else if stringInSlice p defaultPowerPCPlatforms then []
  else if stringInSlice p defaultMIPSPlatforms then []
  else if stringInSlice p defaultS390Platforms then []
  else if stringInMapKeys p then (lookupAlias p).getD []
  else []

/-- Contribution of one pattern to the `powerPCPlatforms` slice. -/
def powerPCOf (p : String) : List String :=
  if stringInSlice p defaultMainPlatforms then []
  else if stringInSlice p defaultARMPlatforms then []
  else if stringInSlice p defaultPowerPCPlatforms then [p]
  else []

/-- Contribution of one pattern to the `mipsPlatforms` slice. -/
def mipsOf (p : String) : List String :=
  if stringInSlice p defaultMainPlatforms then []
  else if stringInSlice p defaultARMPlatforms then []
  else if stringInSlice p defaultPowerPCPlatforms then []
  else if stringInSlice p defaultMIPSPlatforms then [p]
  else []

/-- Contribution of one pattern to the `s390xPlatforms` slice. -/
def s390xOf (p : String) : List String :=
  if stringInSlice p defaultMainPlatforms then []
  else if stringInSlice p defaultARMPlatforms then []
  else if stringInSlice p defaultPowerPCPlatforms then []
  else if stringInSlice p defaultMIPSPlatforms then []
  else if stringInSlice p defaultS390Platforms then [p]
  else []

/-- True when a pattern reaches the `default` arm of the switch: it is not an
exact member of any canonical list and not an alias key. -/
def unmatched (p : String) : Bool :=
  if stringInSlice p defaultMainPlatforms then false
  else if stringInSlice p defaultARMPlatforms then false
  else if stringInSlice p defaultPowerPCPlatforms then false
  else if stringInSlice p defaultMIPSPlatforms then false
  else if stringInSlice p defaultS390Platforms then false
  else if stringInMapKeys p then false
  else true

/-- Contribution of one pattern to the `unknownPlatforms` slice. -/
def unknownOf (p : String) : List String :=
  if unmatched p then [p] else []

/-- The set of platforms a single pattern resolves to, in the order they end
up in `allPlatforms`: at most one of the five family contributions is
non-empty. -/
def resolveOne (p : String) : List String :=
  mainOf p ++ armOf p ++ powerPCOf p ++ mipsOf p ++ s390xOf p

/-- Flattened map over a list. -/
def concatMap (f : String → List String) : List String → List String
  | [] => []
  | p :: rest => f p ++ concatMap f rest

theorem concatMap_nil (f : String → List String) : concatMap f [] = [] := rfl

theorem concatMap_cons (f : String → List String) (p : String) (l : List String) :
    concatMap f (p :: l) = f p ++ concatMap f l := rfl

theorem count_concatMap (f : String → List String) (l : List String) (q : String) :
    List.count q (concatMap f l) = (l.map (fun p => List.count q (f p))).sum := by
  induction l with
  | nil => simp [concatMap]
  | cons p rest ih => simp [concatMap, List.count_append, ih]

/-- One switch iteration appends exactly the per-pattern contributions. -/
theorem classifyStep_eq (c : Classified) (p : String) :
    classifyStep c p =
      { mainPlatforms := c.mainPlatforms ++ mainOf p,
        armPlatforms := c.armPlatforms ++ armOf p,
        powerPCPlatforms := c.powerPCPlatforms ++ powerPCOf p,
        mipsPlatforms := c.mipsPlatforms ++ mipsOf p,
        s390xPlatforms := c.s390xPlatforms ++ s390xOf p,
        unknownPlatforms := c.unknownPlatforms ++ unknownOf p } := by
  unfold classifyStep mainOf armOf powerPCOf mipsOf s390xOf unknownOf unmatched
  repeat' split
  all_goals simp_all

/-- Normal form of the classification loop: each accumulator slice is the
concatenation of the per-pattern contributions, in pattern order. -/
theorem foldl_classifyStep (pats : List String) (c : Classified) :
    pats.foldl classifyStep c =
      { mainPlatforms := c.mainPlatforms ++ concatMap mainOf pats,
        armPlatforms := c.armPlatforms ++ concatMap armOf pats,
        powerPCPlatforms := c.powerPCPlatforms ++ concatMap powerPCOf pats,
        mipsPlatforms := c.mipsPlatforms ++ concatMap mipsOf pats,
        s390xPlatforms := c.s390xPlatforms ++ concatMap s390xOf pats,
        unknownPlatforms := c.unknownPlatforms ++ concatMap unknownOf pats } := by
  induction pats generalizing c with
  | nil => simp [concatMap]
  | cons p rest ih =>
    rw [List.foldl_cons, ih, classifyStep_eq]
    simp [concatMap, List.append_assoc]

theorem classify_eq (pats : List String) :
    classify pats =
      { mainPlatforms := concatMap mainOf pats,
        armPlatforms := concatMap armOf pats,
        powerPCPlatforms := concatMap powerPCOf pats,
        mipsPlatforms := concatMap mipsOf pats,
        s390xPlatforms := concatMap s390xOf pats,
        unknownPlatforms := concatMap unknownOf pats } := by
  unfold classify emptyClassified
  rw [foldl_classifyStep]
  simp

/-- Claim C1 does not hold as stated: the pattern "linux" resolves to no
platform at all (it is reported unknown), although canonical platforms of the
form linux/* exist, because matching is by exact string equality, not
substring or regex semantics. -/
theorem classify_linux_pattern_counterexample :
    allPlatforms (classify ["linux"]) = [] ∧
    (classify ["linux"]).unknownPlatforms = ["linux"] ∧
    stringInSlice "linux/amd64" defaultMainPlatforms = true := by
  refine ⟨rfl, rfl, rfl⟩

/-- Claim C1 (amended): each pattern is resolved by exact string equality
against the canonical platform lists, or through the fixed ARM alias table;
a bare OS prefix such as "linux" matches nothing and is reported unknown. -/
theorem classify_exact_match_resolution :
    (∀ p : String, allPlatforms (classify [p]) = resolveOne p) ∧
    (∀ p : String,
      (classify [p]).unknownPlatforms = if unmatched p then [p] else []) ∧
    allPlatforms (classify ["linux"]) = [] ∧
    (classify ["linux"]).unknownPlatforms = ["linux"] := by
  refine ⟨fun p => ?_, fun p => ?_, rfl, rfl⟩
  · rw [classify_eq]
    simp [allPlatforms, resolveOne, concatMap]
  · rw [classify_eq]
    simp [unknownOf, concatMap]

/-- Claim C2 does not hold as stated: the patterns "linux/armv5" and
"linux/arm" (whose alias expansion also contains linux/armv5) produce
linux/armv5 twice in the final platform list — no deduplication happens. -/
theorem classify_no_dedup_counterexample :
    List.count "linux/armv5" (allPlatforms (classify ["linux/armv5", "linux/arm"])) = 2 := by
  rfl

theorem count_resolve_sum (pats : List String) (q : String) :
    (pats.map (fun p => List.count q (resolveOne p))).sum =
      (pats.map (fun p => List.count q (mainOf p))).sum
      + (pats.map (fun p => List.count q (armOf p))).sum
      + (pats.map (fun p => List.count q (powerPCOf p))).sum
      + (pats.map (fun p => List.count q (mipsOf p))).sum
      + (pats.map (fun p => List.count q (s390xOf p))).sum := by
  induction pats with
  | nil => simp
  | cons p rest ih =>
    rw [List.map_cons, List.sum_cons, ih]
    simp only [resolveOne, List.count_append, List.map_cons, List.sum_cons]
    omega

/-- Claim C2 (amended): the final platform list contains each platform once
per pattern occurrence that resolves to it; overlapping resolved sets
(for instance a variant platform listed next to its alias token) therefore
produce duplicates — the classification performs no deduplication. -/
theorem classify_count_per_pattern :
    ∀ (pats : List String) (q : String),
      List.count q (allPlatforms (classify pats)) =
        (pats.map (fun p => List.count q (resolveOne p))).sum := by
  intro pats q
  rw [classify_eq, count_resolve_sum]
  simp only [allPlatforms, List.count_append, count_concatMap]

/-- The `platformGroup` struct from cmd/crossbuild.go. -/
structure PlatformGroup where
  name : String
  dockerImage : String
  platform : String
deriving Repr, DecidableEq

/-- `dockerBuilderImageName` from cmd/crossbuild.go. -/
def dockerBuilderImageName : String := "quay.io/prometheus/golang-builder"

/-- `fmt.Sprintf("%s:%s-<family>", dockerBuilderImageName, goVersion)` from
cmd/crossbuild.go lines 128-134. -/
def builderImage (goVersion family : String) : String :=
  dockerBuilderImageName ++ ":" ++ goVersion ++ "-" ++ family

/-- One `for _, platform := range ...` group-construction loop body from
`runCrossbuild`: name is the family tag plus the platform with "/" replaced
by "-". -/
def mkGroups (namePfx image : String) (platforms : List String) : List PlatformGroup :=
  platforms.map (fun p => ⟨namePfx ++ p.replace "/" "-", image, p⟩)

/-- The `pgroups` list built by `runCrossbuild` (cmd/crossbuild.go lines
159-240): with cgo disabled every platform is paired with the base image;
with cgo enabled each family is paired with its family image. -/
def crossbuildPGroups (cgo : Bool) (goVersion : String) (c : Classified) :
    List PlatformGroup :=
  if !cgo then
    mkGroups "base-" (builderImage goVersion "base") (allPlatforms c)
  else
    mkGroups "base-" (builderImage goVersion "main") c.mainPlatforms
    ++ mkGroups "arm-" (builderImage goVersion "arm") c.armPlatforms
    ++ mkGroups "powerpc-" (builderImage goVersion "powerpc") c.powerPCPlatforms
    ++ mkGroups "mips-" (builderImage goVersion "mips") c.mipsPlatforms
    ++ mkGroups "s390x-" (builderImage goVersion "s390x") c.s390xPlatforms

/-- The non-fatal warning emitted by `runCrossbuild` when some patterns are
unknown (cmd/crossbuild.go lines 155-157); `%s` on a Go string slice prints
the elements space-separated inside brackets. -/
def crossbuildWarning (c : Classified) : Option String :=
  if c.unknownPlatforms.length > 0 then
    some ("unknown/unhandled platforms: [" ++
      String.intercalate " " c.unknownPlatforms ++ "]")
  else
    none

theorem string_append_assoc (a b c : String) : a ++ b ++ c = a ++ (b ++ c) := by
  apply String.ext
  simp [String.data_append, List.append_assoc]

theorem mkGroups_map_image (namePfx image : String) (l : List String) :
    (mkGroups namePfx image l).map PlatformGroup.dockerImage =
      List.replicate l.length image := by
  induction l with
  | nil => rfl
  | cons p rest ih => simp [mkGroups, List.replicate] at ih ⊢; exact ih

theorem mkGroups_map_platform (namePfx image : String) (l : List String) :
    (mkGroups namePfx image l).map PlatformGroup.platform = l := by
  induction l with
  | nil => rfl
  | cons p rest ih => simp [mkGroups] at ih ⊢; exact ih

theorem familyOf_eq_nil_of_unmatched (p : String) (h : unmatched p = true) :
    mainOf p = [] ∧ armOf p = [] ∧ powerPCOf p = [] ∧ mipsOf p = [] ∧
      s390xOf p = [] := by
  unfold unmatched at h
  unfold mainOf armOf powerPCOf mipsOf s390xOf
  repeat' split at h
  all_goals simp_all

theorem concatMap_filter_matched (f : String → List String)
    (hf : ∀ p, unmatched p = true → f p = []) (l : List String) :
    concatMap f (l.filter (fun p => !unmatched p)) = concatMap f l := by
  induction l with
  | nil => rfl
  | cons p rest ih =>
    by_cases h : unmatched p
    · simp [List.filter, h, ih, concatMap, hf p h]
    · simp only [Bool.not_eq_true] at h
      simp [List.filter, h, concatMap, ih]

theorem concatMap_unknownOf_eq_filter (l : List String) :
    concatMap unknownOf l = l.filter unmatched := by
  induction l with
  | nil => rfl
  | cons p rest ih =>
    by_cases h : unmatched p
    · simp [concatMap, unknownOf, h, List.filter, ih]
    · simp only [Bool.not_eq_true] at h
      simp [concatMap, unknownOf, h, List.filter, ih]

theorem classify_drop_unmatched (pats : List String) :
    classify (pats.filter (fun p => !unmatched p)) =
      { classify pats with unknownPlatforms := [] } := by
  rw [classify_eq, classify_eq]
  have hm := concatMap_filter_matched mainOf
    (fun p h => (familyOf_eq_nil_of_unmatched p h).1) pats
  have ha := concatMap_filter_matched armOf
    (fun p h => (familyOf_eq_nil_of_unmatched p h).2.1) pats
  have hp := concatMap_filter_matched powerPCOf
    (fun p h => (familyOf_eq_nil_of_unmatched p h).2.2.1) pats
  have hmi := concatMap_filter_matched mipsOf
    (fun p h => (familyOf_eq_nil_of_unmatched p h).2.2.2.1) pats
  have hs := concatMap_filter_matched s390xOf
    (fun p h => (familyOf_eq_nil_of_unmatched p h).2.2.2.2) pats
  have hu : concatMap unknownOf (pats.filter (fun p => !unmatched p)) = [] := by
    rw [concatMap_unknownOf_eq_filter]
    simp [List.filter_filter]
  simp [hm, ha, hp, hmi, hs, hu]

/-- Claim C7: a pattern matching zero canonical platforms contributes no
platform, ends up in the recorded unknown-pattern warning, and the platform
groups handed to the scheduler are exactly those of the remaining valid
patterns — the run is not aborted by unknown patterns. -/
theorem unknown_platforms_nonfatal :
    ∀ (pats : List String) (cgo : Bool) (gv : String),
      (classify pats).unknownPlatforms = pats.filter unmatched ∧
      crossbuildPGroups cgo gv (classify pats) =
        crossbuildPGroups cgo gv (classify (pats.filter (fun p => !unmatched p))) ∧
      ((classify pats).unknownPlatforms ≠ [] →
        crossbuildWarning (classify pats) =
          some ("unknown/unhandled platforms: [" ++
            String.intercalate " " (pats.filter unmatched) ++ "]")) := by
  intro pats cgo gv
  have hunk : (classify pats).unknownPlatforms = pats.filter unmatched := by
    rw [classify_eq]
    exact concatMap_unknownOf_eq_filter pats
  refine ⟨hunk, ?_, ?_⟩
  · rw [classify_drop_unmatched]
    unfold crossbuildPGroups allPlatforms
    cases cgo <;> simp
  · intro hne
    unfold crossbuildWarning
    rw [hunk]
    have : (pats.filter unmatched).length > 0 := by
      rw [hunk] at hne
      cases hfilter : pats.filter unmatched with
      | nil => exact absurd hfilter hne
      | cons a l => simp [hfilter]
    simp [this]

/-- Claim C7 witness: the pattern "bogus/arch" next to the valid pattern
"linux/amd64" yields one warning and the same platform groups as
["linux/amd64"] alone. -/
theorem unknown_platforms_nonfatal_witness :
    (classify ["bogus/arch", "linux/amd64"]).unknownPlatforms = ["bogus/arch"] ∧
    crossbuildPGroups false "1.23" (classify ["bogus/arch", "linux/amd64"]) =
      crossbuildPGroups false "1.23"
        (classify (["bogus/arch", "linux/amd64"].filter (fun p => !unmatched p))) ∧
    crossbuildWarning (classify ["bogus/arch", "linux/amd64"]) =
      some "unknown/unhandled platforms: [bogus/arch]" := by
  have h := unknown_platforms_nonfatal ["bogus/arch", "linux/amd64"] false "1.23"
  refine ⟨h.1, h.2.1, ?_⟩
  have hw := h.2.2 (by decide)
  rw [hw]
  rfl

/-- Claim C8: with cgo disabled, every platform group uses the single base
builder image, which for toolchain version V is the builder repository
tagged "V-base"; the groups cover exactly the resolved platforms. -/
theorem cgo_disabled_single_base_image :
    ∀ (gv : String) (c : Classified),
      (crossbuildPGroups false gv c).map PlatformGroup.dockerImage =
        List.replicate (allPlatforms c).length (builderImage gv "base") ∧
      (crossbuildPGroups false gv c).map PlatformGroup.platform = allPlatforms c ∧
      builderImage gv "base" = dockerBuilderImageName ++ ":" ++ gv ++ "-base" := by
  intro gv c
  refine ⟨?_, ?_, ?_⟩
  · unfold crossbuildPGroups
    simp [mkGroups_map_image]
  · unfold crossbuildPGroups
    simp [mkGroups_map_platform]
  · show dockerBuilderImageName ++ ":" ++ gv ++ "-" ++ "base" =
      dockerBuilderImageName ++ ":" ++ gv ++ "-base"
    rw [string_append_assoc (dockerBuilderImageName ++ ":" ++ gv) "-" "base"]
    rfl

/-- True when a string is a member of a list, stated through `stringInSlice`. -/
theorem stringInSlice_eq_true_iff_mem (needle : String) (haystack : List String) :
    stringInSlice needle haystack = true ↔ needle ∈ haystack := by
  induction haystack with
  | nil => simp [stringInSlice]
  | cons hay rest ih =>
    unfold stringInSlice
    by_cases h : hay = needle
    · simp [h]
    · simp [h, ih, List.mem_cons]
      exact fun hn => absurd hn.symm h

/-- The ASCII apostrophe that fmt.Sprintf wraps around the joined extldflags. -/
def singleQuote : String := String.mk [Char.ofNat 39]

/-- Go `strings.TrimSpace`: drop leading and trailing whitespace. -/
def trimSpace (s : String) : String :=
  String.mk
    (((s.toList.dropWhile Char.isWhitespace).reverse.dropWhile
      Char.isWhitespace).reverse)

/-- The build-relevant part of the configuration consumed by `getLdflags`
(cmd/build.go): `config.Build.LDFlags`, `config.Build.Static`,
`config.Build.ExtLDFlags`. -/
structure BuildConfig where
  ldflagsTemplate : String
  static : Bool
  extLDFlags : List String
deriving Repr, DecidableEq

/-- The static-link branch of `getLdflags` (cmd/build.go line 184-186):
append "-static" to the external linker flags iff static linking is on, the
target OS is none of darwin/solaris/illumos, and the flag is not already
present. -/
def staticExtLDFlags (static : Bool) (goos : String) (extLDFlags : List String) :
    List String :=
  if static && !(goos == "darwin") && !(goos == "solaris") && !(goos == "illumos")
      && !(stringInSlice "-static" extLDFlags) then
    extLDFlags ++ ["-static"]
  else
    extLDFlags

/-- `getLdflags` from cmd/build.go (lines 153-193). Template rendering is an
external collaborator (text/template); its output for this invocation is
passed in as `renderedTemplate`. -/
def getLdflags (renderedTemplate : String) (version : String) (cfg : BuildConfig)
    (goos : String) : String :=
  let base :=
    if (trimSpace cfg.ldflagsTemplate).length > 0 then
      renderedTemplate.splitOn "\n"
    else
      ["-X main.Version=" ++ version]
  let ext := staticExtLDFlags cfg.static goos cfg.extLDFlags
  let ldflags :=
    if ext.length > 0 then
      base ++ ["-extldflags " ++ singleQuote ++ String.intercalate " " ext ++ singleQuote]
    else
      base
  String.intercalate " " ldflags

/-- Claim C6: the static-link directive is appended iff static linking is
enabled, the OS is outside the fixed exclusion set, and the flag is not
already present; when appended it occurs exactly once, and re-applying the
composer to its own output adds nothing. -/
theorem static_flag_append_iff :
    ∀ (static : Bool) (goos : String) (ext : List String),
      ((staticExtLDFlags static goos ext = ext ++ ["-static"]) ↔
        (static = true ∧ goos ≠ "darwin" ∧ goos ≠ "solaris" ∧ goos ≠ "illumos" ∧
          stringInSlice "-static" ext = false)) ∧
      (staticExtLDFlags static goos ext = ext ++ ["-static"] →
        List.count "-static" (staticExtLDFlags static goos ext) = 1) ∧
      (staticExtLDFlags static goos (staticExtLDFlags static goos ext) =
        staticExtLDFlags static goos ext) := by
  intro static goos ext
  by_cases hcond : static = true ∧ goos ≠ "darwin" ∧ goos ≠ "solaris" ∧
      goos ≠ "illumos" ∧ stringInSlice "-static" ext = false
  · obtain ⟨h1, h2, h3, h4, h5⟩ := hcond
    have happ : staticExtLDFlags static goos ext = ext ++ ["-static"] := by
      unfold staticExtLDFlags
      simp [h1, h2, h3, h4, h5]
    have hnotmem : "-static" ∉ ext := by
      intro hmem
      rw [← stringInSlice_eq_true_iff_mem] at hmem
      simp [hmem] at h5
    have hcount : List.count "-static" (staticExtLDFlags static goos ext) = 1 := by
      rw [happ]
      simp [List.count_append, List.count_eq_zero.mpr hnotmem]
    refine ⟨⟨fun _ => ⟨h1, h2, h3, h4, h5⟩, fun _ => happ⟩, fun _ => hcount, ?_⟩
    rw [happ]
    unfold staticExtLDFlags
    have : stringInSlice "-static" (ext ++ ["-static"]) = true := by
      rw [stringInSlice_eq_true_iff_mem]
      simp
    simp [this]
  · have hsame : staticExtLDFlags static goos ext = ext := by
      unfold staticExtLDFlags
      split
      · rename_i hguard
        exfalso
        apply hcond
        simp only [Bool.and_eq_true, Bool.not_eq_true', beq_eq_false_iff_ne,
          ne_eq] at hguard
        exact ⟨hguard.1.1.1.1, hguard.1.1.1.2, hguard.1.1.2, hguard.1.2, hguard.2⟩
      · rfl
    have hneq : staticExtLDFlags static goos ext ≠ ext ++ ["-static"] := by
      rw [hsame]
      intro habs
      have := congrArg List.length habs
      simp at this
    refine ⟨⟨fun habs => absurd habs hneq, fun hc => absurd hc hcond⟩,
      fun habs => absurd habs hneq, ?_⟩
    rw [hsame, hsame]

/-- Claim C6 witness: on linux with static on and no configured extLDFlags
the directive is appended and occurs exactly once; instantiates the claim
theorem at static = true, goos = "linux", ext = []. -/
theorem static_flag_append_iff_witness :
    staticExtLDFlags true "linux" [] = [] ++ ["-static"] ∧
    List.count "-static" (staticExtLDFlags true "linux" []) = 1 := by
  have h := static_flag_append_iff true "linux" []
  have happ : staticExtLDFlags true "linux" [] = [] ++ ["-static"] :=
    h.1.mpr ⟨rfl, by decide, by decide, by decide, rfl⟩
  exact ⟨happ, h.2.1 happ⟩

/-- The `Binary` struct from cmd/build.go. -/
structure Binary where
  name : String
  path : String
deriving Repr, DecidableEq

/-- `validateBinaryNames` from cmd/build.go: for each requested name, the
first configured binary with that name; any unknown name fails the whole
validation. -/
def validateBinaryNames (binaryNames : List String) (cfgBinaries : List Binary) :
    Option (List Binary) :=
  match binaryNames with
  | [] => some []
  | n :: rest =>
    match cfgBinaries.find? (fun b => b.name == n) with
    | some b => (validateBinaryNames rest cfgBinaries).map (fun bs => b :: bs)
    | none => none

/-- One dispatched `buildBinary` call of `runBuild` (cmd/build.go): the
binary together with the ldflags string it receives. -/
structure BuildJobCall where
  binary : Binary
  ldflags : String
deriving Repr, DecidableEq

/-- The dispatch part of `runBuild` (cmd/build.go lines 104-151): ldflags is
computed once by `getLdflags` and the chosen binaries are each dispatched
with it; `none` models the fatal exit when a requested binary name fails
validation. -/
def runBuildDispatch (renderedTemplate version : String) (cfg : BuildConfig)
    (goos : String) (binaries : List Binary) (binariesString : String) :
    Option (List BuildJobCall) :=
  let ldflags := getLdflags renderedTemplate version cfg goos
  if binariesString == "all" then
    some (binaries.map (fun b => ⟨b, ldflags⟩))
  else
    (validateBinaryNames (binariesString.splitOn ",") binaries).map
      (fun bs => bs.map (fun b => ⟨b, ldflags⟩))

/-- Claim C9: every build job dispatched in one `runBuild` invocation
receives the one ldflags string computed by `getLdflags` for that
invocation — byte-identical across all jobs. -/
theorem ldflags_identical_across_jobs :
    ∀ (renderedTemplate version : String) (cfg : BuildConfig) (goos : String)
      (binaries : List Binary) (binariesString : String) (jobs : List BuildJobCall),
      runBuildDispatch renderedTemplate version cfg goos binaries binariesString =
        some jobs →
      jobs.map BuildJobCall.ldflags =
        List.replicate jobs.length (getLdflags renderedTemplate version cfg goos) := by
  intro renderedTemplate version cfg goos binaries binariesString jobs hdisp
  simp only [runBuildDispatch] at hdisp
  have hmap : ∀ (bs : List Binary),
      (bs.map (fun b => (⟨b, getLdflags renderedTemplate version cfg goos⟩ :
          BuildJobCall))).map BuildJobCall.ldflags =
        List.replicate bs.length (getLdflags renderedTemplate version cfg goos) := by
    intro bs
    induction bs with
    | nil => rfl
    | cons b rest ih => simp [List.replicate] at ih ⊢; exact ih
  split at hdisp
  · have hj : binaries.map (fun b =>
        (⟨b, getLdflags renderedTemplate version cfg goos⟩ : BuildJobCall)) = jobs :=
      Option.some.inj hdisp
    rw [← hj, List.length_map]
    exact hmap binaries
  · cases hv : validateBinaryNames (binariesString.splitOn ",") binaries with
    | none =>
      rw [hv] at hdisp
      simp at hdisp
    | some bs =>
      rw [hv] at hdisp
      have hj : bs.map (fun b =>
          (⟨b, getLdflags renderedTemplate version cfg goos⟩ : BuildJobCall)) = jobs := by
        simpa using hdisp
      rw [← hj, List.length_map]
      exact hmap bs

/-- Claim C9 witness: a concrete invocation with two configured binaries,
both dispatched jobs carry the single computed ldflags string. -/
theorem ldflags_identical_across_jobs_witness :
    runBuildDispatch "" "1.0.0" ⟨"", false, []⟩ "linux"
        [⟨"promu", "."⟩, ⟨"tool", "./cmd/tool"⟩] "all" =
      some [⟨⟨"promu", "."⟩, "-X main.Version=1.0.0"⟩,
        ⟨⟨"tool", "./cmd/tool"⟩, "-X main.Version=1.0.0"⟩] ∧
    [(⟨⟨"promu", "."⟩, "-X main.Version=1.0.0"⟩ : BuildJobCall),
        ⟨⟨"tool", "./cmd/tool"⟩, "-X main.Version=1.0.0"⟩].map BuildJobCall.ldflags =
      List.replicate 2 (getLdflags "" "1.0.0" ⟨"", false, []⟩ "linux") := by
  refine ⟨by decide, ?_⟩
  exact ldflags_identical_across_jobs "" "1.0.0" ⟨"", false, []⟩ "linux"
    [⟨"promu", "."⟩, ⟨"tool", "./cmd/tool"⟩] "all" _ (by decide)

/-- Numeric value of an all-digit, non-empty character list; `none` otherwise. -/
def goDigitsVal (cs : List Char) : Option Nat :=
  if cs.isEmpty then none
  else if cs.all Char.isDigit then
    some (cs.foldl (fun n c => n * 10 + (c.toNat - 48)) 0)
  else none

/-- Largest value of the Go type int64. -/
def maxInt64 : Int := 9223372036854775807

/-- Smallest value of the Go type int64. -/
def minInt64 : Int := -9223372036854775808

/-- Go `strconv.Atoi` (`ParseInt` base 10, 64-bit int): returns the value and
a success flag. A syntax error yields `(0, false)`; an out-of-range literal
yields the clamped bound with `false`; otherwise the parsed value with
`true`. -/
def goAtoi (s : String) : Int × Bool :=
  match s.toList with
  | [] => (0, false)
  | c :: rest =>
    let signedDigits : Bool × List Char :=
      if c = Char.ofNat 45 then (true, rest)
      else if c = Char.ofNat 43 then (false, rest)
      else (false, c :: rest)
    match goDigitsVal signedDigits.2 with
    | none => (0, false)
    | some n =>
      let v : Int := if signedDigits.1 then -(n : Int) else (n : Int)
      if v > maxInt64 then (maxInt64, false)
      else if v < minInt64 then (minInt64, false)
      else (v, true)

/-- `int(math.Max(1, float64(runtime.NumCPU())-1))`: the default concurrent
build number (cmd/crossbuild.go line 251). -/
def defaultBuildNum (numCPU : Nat) : Int :=
  max 1 ((numCPU : Int) - 1)

/-- The `buildNum` computation of `runCrossbuild` (cmd/crossbuild.go lines
242-252): when CROSSBUILDN is non-empty its Atoi value is taken with the
error discarded; a zero value falls back to the CPU-derived default. -/
def buildNum (crossbuildN : String) (numCPU : Nat) : Int :=
  let n : Int := if crossbuildN.length > 0 then (goAtoi crossbuildN).1 else 0
  if n = 0 then defaultBuildNum numCPU else n

/-- `make(chan struct{}, buildNum)` (cmd/crossbuild.go line 254): a Go
channel with negative capacity cannot be created (runtime panic), modelled
as `none`. -/
def semCapacity (n : Int) : Option Nat :=
  if n < 0 then none else some n.toNat

/-- The concurrency limit as claim C4 words it (for comparison with
`buildNum`): the CROSSBUILDN override when it parses to a positive integer,
otherwise the default max(1, numCPU - 1). -/
def claimedLimitC4 (crossbuildN : String) (numCPU : Nat) : Int :=
  if (goAtoi crossbuildN).2 = true ∧ (goAtoi crossbuildN).1 > 0 then
    (goAtoi crossbuildN).1
  else
    defaultBuildNum numCPU

/-- State of the dispatch loop and the build goroutines of `runCrossbuild`
(cmd/crossbuild.go lines 254-281): `pending` are groups the loop has not yet
dispatched, `holding` is true between the send into the semaphore and the
`go func` for the current group, `running` counts goroutines that have
started and not yet released their slot, `sem` counts tokens in the
semaphore channel. -/
structure SchedState where
  pending : List PlatformGroup
  holding : Bool
  running : Nat
  sem : Nat
deriving Repr, DecidableEq

/-- Transitions of the dispatch loop: the loop acquires a slot (blocking
while the channel holds `limit` tokens), then starts the goroutine for the
head group; a running goroutine completes by receiving from the channel,
releasing its slot. -/
inductive SchedStep (limit : Nat) : SchedState → SchedState → Prop where
  | acquire (pg : PlatformGroup) (rest : List PlatformGroup) (running sem : Nat)
      (hsem : sem < limit) :
      SchedStep limit ⟨pg :: rest, false, running, sem⟩ ⟨pg :: rest, true, running, sem + 1⟩
  | spawn (pg : PlatformGroup) (rest : List PlatformGroup) (running sem : Nat) :
      SchedStep limit ⟨pg :: rest, true, running, sem⟩ ⟨rest, false, running + 1, sem⟩
  | complete (pending : List PlatformGroup) (holding : Bool) (running sem : Nat) :
      SchedStep limit ⟨pending, holding, running + 1, sem + 1⟩ ⟨pending, holding, running, sem⟩

/-- Initial scheduler state: nothing dispatched, empty semaphore channel. -/
def initSched (pgs : List PlatformGroup) : SchedState :=
  ⟨pgs, false, 0, 0⟩

/-- States the dispatch loop can reach from the initial state. -/
def SchedReachable (limit : Nat) (pgs : List PlatformGroup) (s : SchedState) : Prop :=
  Relation.ReflTransGen (SchedStep limit) (initSched pgs) s

/-- The semaphore discipline: tokens in the channel are exactly the running
goroutines plus the one the loop holds pre-spawn, and never exceed the
capacity. -/
def schedInv (limit : Nat) (s : SchedState) : Prop :=
  s.sem = s.running + (if s.holding then 1 else 0) ∧ s.sem ≤ limit

theorem schedInv_init (limit : Nat) (pgs : List PlatformGroup) :
    schedInv limit (initSched pgs) :=
  ⟨rfl, Nat.zero_le _⟩

theorem schedInv_step {limit : Nat} {s t : SchedState} (hs : schedInv limit s)
    (hstep : SchedStep limit s t) : schedInv limit t := by
  obtain ⟨heq, hle⟩ := hs
  cases hstep <;> simp_all [schedInv] <;> omega

theorem schedInv_reachable {limit : Nat} {pgs : List PlatformGroup}
    {s : SchedState} (h : SchedReachable limit pgs s) : schedInv limit s := by
  induction h with
  | refl => exact schedInv_init limit pgs
  | tail _ hstep ih => exact schedInv_step ih hstep

/-- Claim C4 does not hold as stated: with CROSSBUILDN = "-3" (which parses
to an integer that is not positive) the limit claimed would be the default
max(1, numCPU - 1), but the code takes the parsed value -3 as the build
number and then fails to create the semaphore channel, instead of falling
back to the default. -/
theorem crossbuildn_negative_limit_counterexample :
    buildNum "-3" 4 = -3 ∧
    claimedLimitC4 "-3" 4 = 3 ∧
    buildNum "-3" 4 ≠ claimedLimitC4 "-3" 4 ∧
    semCapacity (buildNum "-3" 4) = none := by
  refine ⟨by decide, by decide, by decide, by decide⟩

/-- Claim C4 (amended): CROSSBUILDN is used as the concurrency limit
whenever it Atoi-parses to a nonzero integer (a negative value is passed
through unchanged, and then channel creation fails); a zero or unparsable
value falls back to max(1, numCPU - 1); and for any capacity the dispatch
loop never has more than `limit` build goroutines running at once — a
goroutine starts only after the loop acquires one of the `limit` slots and
its slot is released only on completion. -/
theorem scheduler_bounded_concurrency :
    (∀ (s : String) (numCPU : Nat) (v : Int),
      goAtoi s = (v, true) → v ≠ 0 → s.length > 0 → buildNum s numCPU = v) ∧
    (∀ (s : String) (numCPU : Nat),
      (goAtoi s).1 = 0 → buildNum s numCPU = defaultBuildNum numCPU) ∧
    (∀ (limit : Nat) (pgs : List PlatformGroup) (st : SchedState),
      SchedReachable limit pgs st → st.running ≤ limit) := by
  refine ⟨?_, ?_, ?_⟩
  · intro s numCPU v hparse hnz hlen
    unfold buildNum
    simp [hlen, hparse, hnz]
  · intro s numCPU hzero
    unfold buildNum
    by_cases hlen : s.length > 0
    · simp [hlen, hzero]
    · simp [hlen]
  · intro limit pgs st hreach
    obtain ⟨heq, hle⟩ := schedInv_reachable hreach
    by_cases h : st.holding <;> simp [h] at heq <;> omega

/-- Claim C4 witness: CROSSBUILDN = "2" gives limit 2, and the reachable
state after acquiring and spawning one of two groups runs 1 ≤ 2 goroutines. -/
theorem scheduler_bounded_concurrency_witness :
    buildNum "2" 8 = 2 ∧
    (SchedState.mk [⟨"base-linux-386", "img", "linux/386"⟩] false 1 1).running ≤ 2 := by
  obtain ⟨hsel, _, hbound⟩ := scheduler_bounded_concurrency
  refine ⟨hsel "2" 8 2 (by decide) (by decide) (by decide), ?_⟩
  have hstep1 : SchedStep 2
      ⟨[⟨"base-linux-amd64", "img", "linux/amd64"⟩, ⟨"base-linux-386", "img", "linux/386"⟩],
        false, 0, 0⟩
      ⟨[⟨"base-linux-amd64", "img", "linux/amd64"⟩, ⟨"base-linux-386", "img", "linux/386"⟩],
        true, 0, 1⟩ :=
    SchedStep.acquire ⟨"base-linux-amd64", "img", "linux/amd64"⟩
      [⟨"base-linux-386", "img", "linux/386"⟩] 0 0 (by decide)
  have hstep2 : SchedStep 2
      ⟨[⟨"base-linux-amd64", "img", "linux/amd64"⟩, ⟨"base-linux-386", "img", "linux/386"⟩],
        true, 0, 1⟩
      ⟨[⟨"base-linux-386", "img", "linux/386"⟩], false, 1, 1⟩ :=
    SchedStep.spawn ⟨"base-linux-amd64", "img", "linux/amd64"⟩
      [⟨"base-linux-386", "img", "linux/386"⟩] 0 1
  exact hbound 2
    [⟨"base-linux-amd64", "img", "linux/amd64"⟩, ⟨"base-linux-386", "img", "linux/386"⟩]
    ⟨[⟨"base-linux-386", "img", "linux/386"⟩], false, 1, 1⟩
    (Relation.ReflTransGen.tail (Relation.ReflTransGen.single hstep1) hstep2)

/-- Claim C10: a CROSSBUILDN value that is not an integer literal makes
Atoi fail with value 0; the discarded error leaves buildNum at the
CPU-derived default, the default is at least 1, and semaphore creation
succeeds — the run does not fail because of the malformed override. -/
theorem malformed_crossbuildn_fallback :
    ∀ (s : String) (numCPU : Nat),
      goAtoi s = (0, false) →
      buildNum s numCPU = defaultBuildNum numCPU ∧
      1 ≤ defaultBuildNum numCPU ∧
      semCapacity (buildNum s numCPU) = some (defaultBuildNum numCPU).toNat := by
  intro s numCPU hparse
  have hval : (goAtoi s).1 = 0 := by rw [hparse]
  have hbn : buildNum s numCPU = defaultBuildNum numCPU := by
    unfold buildNum
    by_cases hlen : s.length > 0
    · simp [hlen, hval]
    · simp [hlen]
  have hdef : 1 ≤ defaultBuildNum numCPU := le_max_left 1 _
  refine ⟨hbn, hdef, ?_⟩
  rw [hbn]
  unfold semCapacity
  have : ¬ defaultBuildNum numCPU < 0 := by omega
  simp [this]

/-- Claim C10 witness: CROSSBUILDN = "four" does not parse; with 4 CPUs the
limit falls back to max(1, 4-1) = 3 and the semaphore is created. -/
theorem malformed_crossbuildn_fallback_witness :
    buildNum "four" 4 = defaultBuildNum 4 ∧
    1 ≤ defaultBuildNum 4 ∧
    semCapacity (buildNum "four" 4) = some (defaultBuildNum 4).toNat := by
  exact malformed_crossbuildn_fallback "four" 4 (by decide)

/-- `errors.Wrapf(err, "The %s builder docker image exited unexpectedly",
pg.Name)` (cmd/crossbuild.go line 266): the wrapped message. -/
def wrapBuilderError (name msg : String) : String :=
  "The " ++ name ++ " builder docker image exited unexpectedly: " ++ msg

/-- The error collection of the build loop (cmd/crossbuild.go lines 260-272),
sequentialised: each group is built (`build` is the external `pg.Build`
invocation, `some msg` meaning failure) and a failure appends its wrapped
error; a failure never stops the remaining groups from being built. -/
def crossbuildCollectErrs (build : PlatformGroup → Option String)
    (pgs : List PlatformGroup) (errs : List String) : List String :=
  match pgs with
  | [] => errs
  | pg :: rest =>
    match build pg with
    | some msg => crossbuildCollectErrs build rest (errs ++ [wrapBuilderError pg.name msg])
    | none => crossbuildCollectErrs build rest errs

/-- Outcome of `runCrossbuild` after the pool drains (cmd/crossbuild.go
lines 283-289): print every collected error and exit fatally if any exists,
otherwise succeed. -/
inductive CrossbuildOutcome where
  | success
  | fatalFailure (printed : List String) (finalError : String)
deriving Repr, DecidableEq

/-- The final check of `runCrossbuild`. -/
def crossbuildFinish (errs : List String) : CrossbuildOutcome :=
  if errs.length > 0 then .fatalFailure errs "Crossbuild failed" else .success

theorem crossbuildCollectErrs_append_acc (build : PlatformGroup → Option String)
    (pgs : List PlatformGroup) (errs : List String) :
    crossbuildCollectErrs build pgs errs = errs ++ crossbuildCollectErrs build pgs [] := by
  induction pgs generalizing errs with
  | nil => simp [crossbuildCollectErrs]
  | cons pg rest ih =>
    unfold crossbuildCollectErrs
    cases build pg with
    | some msg =>
      simp only []
      rw [ih (errs ++ [wrapBuilderError pg.name msg]), ih ([] ++ [wrapBuilderError pg.name msg])]
      simp [List.append_assoc]
    | none => simp only []; rw [ih errs]

theorem crossbuildCollectErrs_eq_filterMap (build : PlatformGroup → Option String)
    (pgs : List PlatformGroup) :
    crossbuildCollectErrs build pgs [] =
      pgs.filterMap (fun pg => (build pg).map (wrapBuilderError pg.name)) := by
  induction pgs with
  | nil => rfl
  | cons pg rest ih =>
    unfold crossbuildCollectErrs
    cases hb : build pg with
    | some msg =>
      simp only [List.filterMap_cons, hb, Option.map_some]
      rw [crossbuildCollectErrs_append_acc, ih]
      simp
    | none => simp only [List.filterMap_cons, hb, Option.map_none]; exact ih

/-- Claim C3: every failing job contributes exactly its wrapped error to the
collected list and failures do not abort the remaining jobs (the collection
over `before ++ failing ++ after` is the concatenation of the independent
collections); after all jobs ran, a non-empty error list is printed in full
with a fatal exit, and an empty one means success. -/
theorem crossbuild_failure_aggregation :
    ∀ (build : PlatformGroup → Option String) (pgs pgsBefore pgsAfter : List PlatformGroup),
      crossbuildCollectErrs build pgs [] =
        pgs.filterMap (fun pg => (build pg).map (wrapBuilderError pg.name)) ∧
      crossbuildCollectErrs build (pgsBefore ++ pgsAfter) [] =
        crossbuildCollectErrs build pgsBefore [] ++ crossbuildCollectErrs build pgsAfter [] ∧
      (∀ pg msg, pg ∈ pgs → build pg = some msg →
        wrapBuilderError pg.name msg ∈ crossbuildCollectErrs build pgs []) ∧
      (crossbuildCollectErrs build pgs [] = [] →
        crossbuildFinish (crossbuildCollectErrs build pgs []) = .success) ∧
      (crossbuildCollectErrs build pgs [] ≠ [] →
        crossbuildFinish (crossbuildCollectErrs build pgs []) =
          .fatalFailure (crossbuildCollectErrs build pgs []) "Crossbuild failed") := by
  intro build pgs pgsBefore pgsAfter
  refine ⟨crossbuildCollectErrs_eq_filterMap build pgs, ?_, ?_, ?_, ?_⟩
  · rw [crossbuildCollectErrs_eq_filterMap, crossbuildCollectErrs_eq_filterMap,
      crossbuildCollectErrs_eq_filterMap, List.filterMap_append]
  · intro pg msg hmem hfail
    rw [crossbuildCollectErrs_eq_filterMap]
    exact List.mem_filterMap.mpr ⟨pg, hmem, by rw [hfail]; rfl⟩
  · intro hnil
    rw [hnil]
    rfl
  · intro hne
    unfold crossbuildFinish
    have : (crossbuildCollectErrs build pgs []).length > 0 := by
      cases h : crossbuildCollectErrs build pgs [] with
      | nil => exact absurd h hne
      | cons a l => simp [h]
    simp [this]

/-- Claim C3 witness: of three concrete groups the middle one fails; its
wrapped error is the only collected one, the siblings around it are still
processed, and the run ends fatally printing that error. -/
theorem crossbuild_failure_aggregation_witness :
    wrapBuilderError "base-linux-386" "exit status 2" ∈
      crossbuildCollectErrs
        (fun pg => if pg.name == "base-linux-386" then some "exit status 2" else none)
        [⟨"base-linux-amd64", "img", "linux/amd64"⟩, ⟨"base-linux-386", "img", "linux/386"⟩,
          ⟨"base-darwin-amd64", "img", "darwin/amd64"⟩] [] ∧
    crossbuildFinish
        (crossbuildCollectErrs
          (fun pg => if pg.name == "base-linux-386" then some "exit status 2" else none)
          [⟨"base-linux-amd64", "img", "linux/amd64"⟩, ⟨"base-linux-386", "img", "linux/386"⟩,
            ⟨"base-darwin-amd64", "img", "darwin/amd64"⟩] []) =
      .fatalFailure
        (crossbuildCollectErrs
          (fun pg => if pg.name == "base-linux-386" then some "exit status 2" else none)
          [⟨"base-linux-amd64", "img", "linux/amd64"⟩, ⟨"base-linux-386", "img", "linux/386"⟩,
            ⟨"base-darwin-amd64", "img", "darwin/amd64"⟩] [])
        "Crossbuild failed" := by
  have h := crossbuild_failure_aggregation
    (fun pg => if pg.name == "base-linux-386" then some "exit status 2" else none)
    [⟨"base-linux-amd64", "img", "linux/amd64"⟩, ⟨"base-linux-386", "img", "linux/386"⟩,
      ⟨"base-darwin-amd64", "img", "darwin/amd64"⟩] [] []
  refine ⟨?_, h.2.2.2.2 (by decide)⟩
  exact h.2.2.1 ⟨"base-linux-386", "img", "linux/386"⟩ "exit status 2"
    (by simp) (by decide)

/-- Shared-memory state of two build goroutines racing on the `errs` slice
(cmd/crossbuild.go line 266): the shared slice plus the local
snapshot of it. The statement `errs = append(errs, e)` is not atomic — it
reads the current slice and later writes back the extended one; nothing in
the code (the `dockerCopyMutex` guards only `docker cp`) orders the two
read/write pairs of the two goroutines. -/
structure RaceState where
  errs : List String
  snap0 : Option (List String)
  snap1 : Option (List String)
deriving Repr, DecidableEq

/-- The four memory operations of the two appends: each goroutine reads the
shared slice, then writes back its snapshot extended by its own error. -/
inductive AppendOp where
  | read0
  | write0
  | read1
  | write1
deriving Repr, DecidableEq

/-- Effect of one memory operation. -/
def raceStep (msg0 msg1 : String) (s : RaceState) : AppendOp → RaceState
  | .read0 => { s with snap0 := some s.errs }
  | .write0 =>
    match s.snap0 with
    | some base => { s with errs := base ++ [msg0] }
    | none => s
  | .read1 => { s with snap1 := some s.errs }
  | .write1 =>
    match s.snap1 with
    | some base => { s with errs := base ++ [msg1] }
    | none => s

/-- Execution of an interleaving of the two appends from the empty slice. -/
def raceRun (msg0 msg1 : String) (sched : List AppendOp) : RaceState :=
  sched.foldl (raceStep msg0 msg1) ⟨[], none, none⟩

/-- Claim C5 fails on the code: the appends to the shared `errs` slice are
not protected against concurrent-append races. In the interleaving where
both goroutines read `errs` before either writes, both appends execute yet
the final slice holds only one of the two errors — the result of the first
failing job is lost; the program-order interleaving keeps both, showing the loss
is caused purely by the unsynchronised overlap. -/
theorem unsynchronized_error_append_loses_result :
    (raceRun (wrapBuilderError "base-linux-amd64" "exit status 1")
        (wrapBuilderError "base-linux-386" "exit status 2")
        [.read0, .read1, .write0, .write1]).errs =
      [wrapBuilderError "base-linux-386" "exit status 2"] ∧
    (raceRun (wrapBuilderError "base-linux-amd64" "exit status 1")
        (wrapBuilderError "base-linux-386" "exit status 2")
        [.read0, .write0, .read1, .write1]).errs =
      [wrapBuilderError "base-linux-amd64" "exit status 1",
        wrapBuilderError "base-linux-386" "exit status 2"] ∧
    (raceRun (wrapBuilderError "base-linux-amd64" "exit status 1")
        (wrapBuilderError "base-linux-386" "exit status 2")
        [.read0, .read1, .write0, .write1]).errs.length = 1 := by
  refine ⟨rfl, rfl, rfl⟩

end Promu
